import Mathlib

/-!
Verification development for the robocot-vk storage-bridge scripts.

The StorageBridge of the specification is the trio `enhancedGetItem`,
`enhancedSetItem`, `enhancedRemoveItem` from the Game Storage Loader
script, layered over two external collaborators:

* the local backend (`originalLocalStorage`, the browser's synchronous
  key/value store), modelled as an association list `localMap` together
  with a per-call outcome (`LocB`) saying whether this particular
  local-backend call succeeds or throws (e.g. quota exceeded);
* the remote backend (`window.VKBridgeWrapper.storageGet/storageSet`
  over the platform store), modelled as an association list `remoteMap`
  together with per-call outcomes (`RGetB`, `RSetB`): a remote read may
  throw, or return an arbitrary response (`null`, or any string); a
  remote write may throw, report failure (`false`), or succeed and
  update the platform store.

The in-memory `vkStorageCache` Map is modelled by the `cache` field, and
the readiness guard `window.VKBridgeWrapper && window.VKBridgeWrapper.initialized`
by the two booleans `wrapperPresent` and `initialized`.

Each bridge operation is a deterministic state transformer over `World`,
parametrised by the behaviour record of its external calls; it returns
the JavaScript outcome of the call (`JsOutcome`: the promise resolves
with a value, or rejects with a propagated exception), the new world,
and the number of remote-backend calls it issued.  The transcription
follows the source line by line, including the exact order of the cache
update and the local write-back inside `enhancedGetItem`, and the fact
that the `catch` block of `enhancedGetItem` performs its final
local-backend read outside of any try.
-/

namespace RobocotVK

/-- Lookup in an association-list key/value map (first binding wins,
matching both `Map.get` and the storage backends). -/
def lookupKV (m : List (String × String)) (k : String) : Option String :=
  match m with
  | [] => none
  | (k', v) :: rest => if k' = k then some v else lookupKV rest k

/-- Delete every binding of `k` (models `localStorage.removeItem` /
`Map.delete`). -/
def eraseKV (m : List (String × String)) (k : String) : List (String × String) :=
  m.filter (fun p => p.1 ≠ k)

/-- Overwrite the binding of `k` with `v` (models `localStorage.setItem` /
`Map.set` / a platform-store write). -/
def insertKV (m : List (String × String)) (k v : String) : List (String × String) :=
  (k, v) :: eraseKV m k

@[simp] theorem lookupKV_insertKV_self (m : List (String × String)) (k v : String) :
    lookupKV (insertKV m k v) k = some v := by
  simp [insertKV, lookupKV]

@[simp] theorem lookupKV_eraseKV_self (m : List (String × String)) (k : String) :
    lookupKV (eraseKV m k) k = none := by
  induction m with
  | nil => simp [eraseKV, lookupKV]
  | cons p rest ih =>
    by_cases h : p.1 = k
    · simpa [eraseKV, h] using ih
    · simpa [eraseKV, lookupKV, h] using ih

/-- The full mutable state the bridge operates on: the local backend's
contents, the platform store's contents, the in-memory cache, and the
readiness guard (`window.VKBridgeWrapper` present, and its
`initialized` flag). -/
structure World where
  localMap : List (String × String)
  remoteMap : List (String × String)
  cache : List (String × String)
  wrapperPresent : Bool
  initialized : Bool
deriving DecidableEq

/-- The readiness check `window.VKBridgeWrapper && window.VKBridgeWrapper.initialized`. -/
def vkReady (w : World) : Bool := w.wrapperPresent && w.initialized

/-- Outcome of one remote read (`VKBridgeWrapper.storageGet`): the call
may throw (promise rejection), or resolve with `null` or with any
string — the response is an arbitrary collaborator behaviour, not tied
to `remoteMap` (the wrapper itself returns `null` on its internal
failure paths). -/
inductive RGetB
  | throws
  | ret (v : Option String)
deriving DecidableEq

/-- Outcome of one remote write (`VKBridgeWrapper.storageSet`): throw,
resolve `false` (reported failure, store unchanged), or resolve `true`
(the platform store is updated). -/
inductive RSetB
  | throws
  | retFalse
  | ok
deriving DecidableEq

/-- Outcome of one local-backend call (`originalLocalStorage.getItem` /
`setItem` / `removeItem`): the call succeeds against `localMap`, or
throws (e.g. quota exceeded, storage access denied). -/
inductive LocB
  | throws
  | ok
deriving DecidableEq

/-- Behaviour of the external calls `enhancedGetItem` may issue, in
source order: the remote read, the local write-back of a remote value,
the local fallback read, the sync-up remote write of a local value, and
the final local read inside the `catch` block. -/
structure GetB where
  remoteGet : RGetB
  localWriteBack : LocB
  localGet : LocB
  remoteSync : RSetB
  catchLocalGet : LocB
deriving DecidableEq

/-- Behaviour of the external calls of `enhancedSetItem`: the
unconditional local write, then the replication remote write. -/
structure SetB where
  localSet : LocB
  remoteSet : RSetB
deriving DecidableEq

/-- Behaviour of the external calls of `enhancedRemoveItem`: the local
remove, then the empty-string remote write. -/
structure RemoveB where
  localRemove : LocB
  remoteSet : RSetB
deriving DecidableEq

/-- Outcome of an `async` JavaScript function as observed by its caller:
the promise resolves with a value, or rejects (an exception propagated
out of the function). -/
inductive JsOutcome (α : Type)
  | thrown
  | value (v : α)
deriving DecidableEq

/-- The JavaScript value an operation resolves with, when the claims
care whether it is a boolean: `undefined` or an actual boolean. -/
inductive JsRet
  | undef
  | boolv (b : Bool)
deriving DecidableEq

/-- Result of one bridge read: the resolved value (`null` is `none`),
the world afterwards, and how many remote-backend calls were issued. -/
structure GetResult where
  ret : JsOutcome (Option String)
  world : World
  remoteCalls : Nat
deriving DecidableEq

/-- Result of one bridge write. -/
structure SetResult where
  ret : JsOutcome JsRet
  world : World
  remoteCalls : Nat
deriving DecidableEq

/-- Result of one bridge remove. -/
structure RemoveResult where
  ret : JsOutcome Unit
  world : World
  remoteCalls : Nat
deriving DecidableEq

/-- The `catch` block of `enhancedGetItem`: it logs and then returns
`originalLocalStorage.getItem(key)` — a local-backend read performed
outside of any try, so if that read itself throws the exception
propagates out of `enhancedGetItem`. -/
def catchFallback (key : String) (b : GetB) (w : World) (calls : Nat) : GetResult :=
  match b.catchLocalGet with
  | .throws => ⟨.thrown, w, calls⟩
  | .ok => ⟨.value (lookupKV w.localMap key), w, calls⟩

/-- The local-fallback phase of `enhancedGetItem` (source lines 69–89):
read the local backend; if it has a value, sync it up to the remote
backend when the bridge is ready, and return it; otherwise return
`null`.  Any throw lands in the `catch` block. -/
def localPhase (key : String) (b : GetB) (w : World) (calls : Nat) : GetResult :=
  match b.localGet with
  | .throws => catchFallback key b w calls
  | .ok =>
    match lookupKV w.localMap key with
    | some localValue =>
      if vkReady w then
        match b.remoteSync with
        | .throws => catchFallback key b w (calls + 1)
        | .retFalse => ⟨.value (some localValue), w, calls + 1⟩
        | .ok => ⟨.value (some localValue),
                  { w with remoteMap := insertKV w.remoteMap key localValue }, calls + 1⟩
      else ⟨.value (some localValue), w, calls⟩
    | none => ⟨.value none, w, calls⟩

/-- `enhancedGetItem(key)` of the Game Storage Loader: if the bridge is
ready, try the remote read first; a non-null, non-empty remote value is
cached, written back to the local backend, and returned; otherwise fall
through to the local phase.  When the bridge is not ready the remote
backend is skipped entirely (zero remote calls).  The cache update at
source line 58 happens before the local write-back at line 59, so a
throwing write-back still leaves the cache updated. -/
def enhancedGetItem (key : String) (b : GetB) (w : World) : GetResult :=
  if vkReady w then
    match b.remoteGet with
    | .throws => catchFallback key b w 1
    | .ret none => localPhase key b w 1
    | .ret (some v) =>
      if v = "" then localPhase key b w 1
      else
        let w1 := { w with cache := insertKV w.cache key v }
        match b.localWriteBack with
        | .throws => catchFallback key b w1 1
        | .ok => ⟨.value (some v), { w1 with localMap := insertKV w1.localMap key v }, 1⟩
  else localPhase key b w 0

/-- `enhancedSetItem(key, value)`: write to the local backend first,
synchronously and unconditionally; then, if the bridge is ready,
replicate to the remote backend, updating the cache only when that
replication reports success.  Every throw is caught and only logged;
the function always resolves with `undefined` (it has no return
statement). -/
def enhancedSetItem (key value : String) (b : SetB) (w : World) : SetResult :=
  match b.localSet with
  | .throws => ⟨.value .undef, w, 0⟩
  | .ok =>
    let w1 := { w with localMap := insertKV w.localMap key value }
    if vkReady w then
      match b.remoteSet with
      | .throws => ⟨.value .undef, w1, 1⟩
      | .retFalse => ⟨.value .undef, w1, 1⟩
      | .ok => ⟨.value .undef,
                { w1 with remoteMap := insertKV w1.remoteMap key value,
                          cache := insertKV w1.cache key value }, 1⟩
    else ⟨.value .undef, w1, 0⟩

/-- `enhancedRemoveItem(key)`: remove from the local backend, delete the
cache entry, and, if the bridge is ready, write an empty string to the
remote backend ("removed" is modelled as empty value).  If the local
remove throws, control jumps to the `catch` block and the cache delete
and the remote write are skipped.  Every throw is caught and only
logged; the function always resolves. -/
def enhancedRemoveItem (key : String) (b : RemoveB) (w : World) : RemoveResult :=
  match b.localRemove with
  | .throws => ⟨.value (), w, 0⟩
  | .ok =>
    let w1 := { w with localMap := eraseKV w.localMap key, cache := eraseKV w.cache key }
    if vkReady w then
      match b.remoteSet with
      | .throws => ⟨.value (), w1, 1⟩
      | .retFalse => ⟨.value (), w1, 1⟩
      | .ok => ⟨.value (), { w1 with remoteMap := insertKV w1.remoteMap key "" }, 1⟩
    else ⟨.value (), w1, 0⟩

/-- Outcome of one call to `VKBridgeWrapper.init`: the value the promise
resolves with, the `initialized` flag afterwards, and how many
underlying platform initialization calls (`vkBridge.send('VKWebAppInit')`)
this invocation performed. -/
structure InitOutcome where
  result : Bool
  initialized : Bool
  platformCalls : Nat
deriving DecidableEq

/-- `VKBridgeWrapper.init()` (vk-iframe-fix.js): if already initialized,
return `true` with no platform call; if `vkBridge` is undefined, return
`false` with no platform call; otherwise send `VKWebAppInit` (one
platform call) — on success set the flag and return `true`, on a thrown
error the `catch` returns `false` and the flag stays unset.
`vkDef` models `typeof vkBridge !== 'undefined'`, `sendOk` the outcome
of this particular handshake round trip, `s` the current flag. -/
def vkInit (vkDef sendOk s : Bool) : InitOutcome :=
  if s then ⟨true, s, 0⟩
  else if vkDef then
    if sendOk then ⟨true, true, 1⟩ else ⟨false, s, 1⟩
  else ⟨false, s, 0⟩

/-- A sequence of `init()` invocations (as issued by the auto-init hook
and by every `storageGet`/`storageSet` that finds the flag unset),
threaded through the shared `initialized` flag: returns the final flag
and the total number of underlying platform initialization calls. -/
def initCalls (vkDef : Bool) (sends : List Bool) (s : Bool) : Bool × Nat :=
  match sends with
  | [] => (s, 0)
  | sendOk :: rest =>
    let r := vkInit vkDef sendOk s
    let tail := initCalls vkDef rest r.initialized
    (tail.1, r.platformCalls + tail.2)

/-- The `maxAttempts` constant of the start-up wait loop in the Game
Storage Loader's `initialize()` (source: `const maxAttempts = 50`). -/
def maxAttempts : Nat := 50

/-- The polling interval of the start-up wait loop, in milliseconds
(source: `setTimeout(resolve, 100)`). -/
def pollIntervalMs : Nat := 100

/-- One step of the start-up wait loop
`while (!window.VKBridgeWrapper.initialized && attempts < maxAttempts)`:
`readyAt n` is the value of the `initialized` flag observed after `n`
sleeps.  The fuel argument only makes the recursion structural; with
fuel `maxAttempts` it never runs out before the guard fails. -/
def pollAux (readyAt : Nat → Bool) (attempts fuel : Nat) : Nat :=
  match fuel with
  | 0 => attempts
  | fuel' + 1 =>
    if readyAt attempts = false ∧ attempts < maxAttempts then
      pollAux readyAt (attempts + 1) fuel'
    else attempts

/-- The number of 100 ms sleeps the start-up wait loop performs before
`initialize()` proceeds, for a given readiness history. -/
def pollAttempts (readyAt : Nat → Bool) : Nat :=
  pollAux readyAt 0 maxAttempts

theorem pollAux_le (readyAt : Nat → Bool) (attempts fuel : Nat) :
    pollAux readyAt attempts fuel ≤ attempts + fuel := by
  induction fuel generalizing attempts with
  | zero => simp [pollAux]
  | succ f ih =>
    by_cases h : readyAt attempts = false ∧ attempts < maxAttempts
    · calc pollAux readyAt attempts (f + 1) = pollAux readyAt (attempts + 1) f := by
            simp [pollAux, h]
        _ ≤ (attempts + 1) + f := ih (attempts + 1)
        _ = attempts + (f + 1) := by omega
    · simp [pollAux, h]

theorem pollAux_le_max (readyAt : Nat → Bool) (attempts fuel : Nat)
    (h : attempts ≤ maxAttempts) : pollAux readyAt attempts fuel ≤ maxAttempts := by
  induction fuel generalizing attempts with
  | zero => simpa [pollAux] using h
  | succ f ih =>
    by_cases hc : readyAt attempts = false ∧ attempts < maxAttempts
    · have : pollAux readyAt attempts (f + 1) = pollAux readyAt (attempts + 1) f := by
        simp [pollAux, hc]
      rw [this]
      exact ih (attempts + 1) hc.2
    · simpa [pollAux, hc] using h

/-- One level group, as `calculateNextLevel` reads it: the `isCustom`
flag used by the filter, and the group's `levels` array (only its
length and identity matter to the function, so elements are `Unit`). -/
structure Group where
  isCustom : Bool
  levels : List Unit
deriving DecidableEq

/-- The object `calculateNextLevel` returns when there is a next level. -/
structure NextLevel where
  nextLevel : Int
  nextLevelGroup : Nat
deriving DecidableEq

/-- JavaScript array indexing `levelGroups[currentLevelGroup]` with a
number index: `undefined` (here `none`) outside `[0, length)`. -/
def jsIndex (l : List Group) (i : Int) : Option Group :=
  if 0 ≤ i ∧ i < (l.length : Int) then l.get? i.toNat else none

/-- `Array.prototype.indexOf` restricted to the observations the claims
make: the index of the first occurrence, `none` when absent.  (JS
compares by object identity; this model compares structurally, which
agrees with it on every observation made here — groups that compare
differently under the two notions are structurally identical, hence
indistinguishable by `isCustom` / `levels`.) -/
def idxOf (l : List Group) (g : Group) : Option Nat :=
  match l with
  | [] => none
  | x :: rest =>
    if x = g then some 0
    else (idxOf rest g).map (· + 1)

theorem idxOf_get? (l : List Group) (g : Group) (i : Nat)
    (h : idxOf l g = some i) : l.get? i = some g := by
  induction l generalizing i with
  | nil => simp [idxOf] at h
  | cons x rest ih =>
    by_cases hx : x = g
    · simp [idxOf, hx] at h
      subst h
      simp [hx]
    · simp [idxOf, hx] at h
      obtain ⟨j, hj, rfl⟩ := h
      simpa using ih j hj

theorem idxOf_isSome_of_mem (l : List Group) (g : Group) (h : g ∈ l) :
    ∃ i, idxOf l g = some i := by
  induction l with
  | nil => simp at h
  | cons x rest ih =>
    by_cases hx : x = g
    · exact ⟨0, by simp [idxOf, hx]⟩
    · have hm : g ∈ rest := by
        rcases List.mem_cons.mp h with h1 | h1
        · exact absurd h1.symm hx
        · exact h1
      obtain ⟨i, hi⟩ := ih hm
      exact ⟨i + 1, by simp [idxOf, hx, hi]⟩

/-- `calculateNextLevel(currentLevel, currentLevelGroup, levelGroups)`
from the Player Progress Saver: filter out custom groups, locate the
current group, then either advance within the group (when
`currentLevel + 1 < currentGroupLevels.length`), advance to the first
level of the next non-custom group, or return `null` on the last level.
`levelGroups = none` models a missing / non-array argument (the
`Array.isArray` guard).  The `none` fallbacks on the inner `match`es
are unreachable: `idxOf` always returns a valid index of its list, and
`nonCustomGroups.get?` is applied at indices below the length. -/
def calculateNextLevel (currentLevel currentLevelGroup : Int)
    (levelGroups : Option (List Group)) : Option NextLevel :=
  match levelGroups with
  | none => none
  | some lgs =>
    let nonCustomGroups := lgs.filter (fun g => !g.isCustom)
    if nonCustomGroups.length = 0 then none
    else
      match jsIndex lgs currentLevelGroup with
      | none => none
      | some sel =>
        match idxOf nonCustomGroups sel with
        | none => none
        | some cif =>
          match nonCustomGroups.get? cif with
          | none => none
          | some cur =>
            match idxOf lgs cur with
            | none => none
            | some curAll =>
              if currentLevel + 1 < (cur.levels.length : Int) then
                some ⟨currentLevel + 1, curAll⟩
              else if cif + 1 < nonCustomGroups.length then
                match nonCustomGroups.get? (cif + 1) with
                | none => none
                | some nextG =>
                  match idxOf lgs nextG with
                  | none => none
                  | some nextAll => some ⟨0, nextAll⟩
              else none

/-! ### Helper lemmas about the error behaviour of the bridge -/

theorem catchFallback_ne_thrown (key : String) (b : GetB) (w : World) (calls : Nat)
    (hc : b.catchLocalGet = LocB.ok) :
    (catchFallback key b w calls).ret ≠ JsOutcome.thrown := by
  simp [catchFallback, hc]

theorem localPhase_ne_thrown (key : String) (b : GetB) (w : World) (calls : Nat)
    (hc : b.catchLocalGet = LocB.ok) :
    (localPhase key b w calls).ret ≠ JsOutcome.thrown := by
  cases hlg : b.localGet <;>
    rcases hlk : lookupKV w.localMap key with _ | lv <;>
    cases hr : vkReady w <;>
    cases hrs : b.remoteSync <;>
    simp_all [localPhase, catchFallback]

theorem enhancedGetItem_ne_thrown (key : String) (b : GetB) (w : World)
    (hc : b.catchLocalGet = LocB.ok) :
    (enhancedGetItem key b w).ret ≠ JsOutcome.thrown := by
  cases hr : vkReady w
  · simpa [enhancedGetItem, hr] using localPhase_ne_thrown key b w 0 hc
  · rcases hrg : b.remoteGet with _ | v
    · simpa [enhancedGetItem, hr, hrg] using catchFallback_ne_thrown key b w 1 hc
    · rcases v with _ | v
      · simpa [enhancedGetItem, hr, hrg] using localPhase_ne_thrown key b w 1 hc
      · by_cases hv : v = ""
        · simpa [enhancedGetItem, hr, hrg, hv] using localPhase_ne_thrown key b w 1 hc
        · cases hwb : b.localWriteBack <;>
            simp_all [enhancedGetItem, catchFallback]

theorem enhancedSetItem_resolves (key value : String) (b : SetB) (w : World) :
    (enhancedSetItem key value b w).ret = JsOutcome.value JsRet.undef := by
  obtain ⟨ls, rs⟩ := b
  cases ls <;> cases rs <;> cases hr : vkReady w <;> simp_all [enhancedSetItem]

theorem enhancedRemoveItem_resolves (key : String) (b : RemoveB) (w : World) :
    (enhancedRemoveItem key b w).ret = JsOutcome.value () := by
  obtain ⟨lr, rs⟩ := b
  cases lr <;> cases rs <;> cases hr : vkReady w <;> simp_all [enhancedRemoveItem]

/-! ### C1 — terminal error boundary -/

/-- C1, counterexample.  The claim says no exception ever reaches the
caller, "even when the final local-backend read or write itself
throws".  But the `catch` block of `enhancedGetItem` performs its final
`originalLocalStorage.getItem(key)` outside of any try: with the bridge
ready, a throwing remote read followed by a throwing final local read
makes `get("k")` reject — the exception propagates to the caller. -/
theorem get_can_propagate_local_read_exception :
    (enhancedGetItem "k"
        ⟨RGetB.throws, LocB.ok, LocB.ok, RSetB.ok, LocB.throws⟩
        ⟨[("k", "v")], [], [], true, true⟩).ret = JsOutcome.thrown := by decide

/-- C1, amended: `set(key, value)` and `remove(key)` never propagate an
exception for any behaviour of the two backends (every failure is
absorbed or communicated through the resolved value), and `get(key)`
never propagates an exception provided the final local-backend read in
its `catch` block does not itself throw; if a failure in the primary
path is followed by that one local read throwing, `get` propagates the
local read's exception (see the counterexample). -/
theorem bridge_terminal_error_boundary (key value : String)
    (bg : GetB) (bs : SetB) (br : RemoveB) (w : World)
    (hg : bg.catchLocalGet = LocB.ok) :
    (enhancedGetItem key bg w).ret ≠ JsOutcome.thrown ∧
    (enhancedSetItem key value bs w).ret = JsOutcome.value JsRet.undef ∧
    (enhancedRemoveItem key br w).ret = JsOutcome.value () :=
  ⟨enhancedGetItem_ne_thrown key bg w hg,
   enhancedSetItem_resolves key value bs w,
   enhancedRemoveItem_resolves key br w⟩

/-- C1, witness: the amended boundary theorem at a concrete world in
which the remote read throws but the catch-block local read succeeds. -/
theorem bridge_terminal_error_boundary_witness :
    (enhancedGetItem "k"
        ⟨RGetB.throws, LocB.ok, LocB.ok, RSetB.ok, LocB.ok⟩
        ⟨[("k", "v")], [], [], true, true⟩).ret ≠ JsOutcome.thrown ∧
    (enhancedSetItem "k" "v" ⟨LocB.ok, RSetB.throws⟩
        ⟨[("k", "v")], [], [], true, true⟩).ret = JsOutcome.value JsRet.undef ∧
    (enhancedRemoveItem "k" ⟨LocB.ok, RSetB.throws⟩
        ⟨[("k", "v")], [], [], true, true⟩).ret = JsOutcome.value () :=
  bridge_terminal_error_boundary "k" "v"
    ⟨RGetB.throws, LocB.ok, LocB.ok, RSetB.ok, LocB.ok⟩
    ⟨LocB.ok, RSetB.throws⟩ ⟨LocB.ok, RSetB.throws⟩
    ⟨[("k", "v")], [], [], true, true⟩ (by decide)

/-! ### C2 — local durability of set -/

/-- C2: for every key `k` and value `v` and every behaviour of the
remote backend (ready, absent, failing, throwing), after
`set(k, v)` resolves with the local write having succeeded, the local
backend holds `v` for `k`; and the local write comes first: if the
local write throws, no remote call is attempted and the world is left
unchanged. -/
theorem set_local_durability (k v : String) (b : SetB) (w : World) :
    (b.localSet = LocB.ok →
      lookupKV ((enhancedSetItem k v b w).world).localMap k = some v) ∧
    (b.localSet = LocB.throws →
      (enhancedSetItem k v b w).remoteCalls = 0 ∧
      (enhancedSetItem k v b w).world = w) := by
  obtain ⟨ls, rs⟩ := b
  cases ls <;> cases rs <;> cases hr : vkReady w <;>
    simp_all [enhancedSetItem]

/-- C2, witness: concrete instances of both conjuncts — a successful
local write is durable even though the remote write throws, and a
throwing local write issues no remote call. -/
theorem set_local_durability_witness :
    lookupKV ((enhancedSetItem "k" "v" ⟨LocB.ok, RSetB.throws⟩
        ⟨[], [], [], true, true⟩).world).localMap "k" = some "v" ∧
    (enhancedSetItem "k" "v" ⟨LocB.throws, RSetB.ok⟩
        ⟨[], [], [], true, true⟩).remoteCalls = 0 :=
  ⟨(set_local_durability "k" "v" ⟨LocB.ok, RSetB.throws⟩
      ⟨[], [], [], true, true⟩).1 (by decide),
   ((set_local_durability "k" "v" ⟨LocB.throws, RSetB.ok⟩
      ⟨[], [], [], true, true⟩).2 (by decide)).1⟩

/-! ### C6 — the value set resolves with -/

/-- C6, counterexample.  The claim says `set(key, value)` resolves to a
boolean success status.  `enhancedSetItem` has no return statement: in
the scenario of the claim (remote backend throws on every call) —
and in every other — `set("k","v")` resolves with `undefined`, which
is not a boolean and not truthy. -/
theorem set_returns_undefined_not_boolean :
    (enhancedSetItem "k" "v" ⟨LocB.ok, RSetB.throws⟩
        ⟨[], [], [], true, true⟩).ret = JsOutcome.value JsRet.undef ∧
    ¬ ∃ bb : Bool, (enhancedSetItem "k" "v" ⟨LocB.ok, RSetB.throws⟩
        ⟨[], [], [], true, true⟩).ret = JsOutcome.value (JsRet.boolv bb) := by
  decide

/-- C6, amended: `set(key, value)` always resolves (never rejects), but
with `undefined` rather than a boolean; the local-durability half of
the claim stands: when the local write succeeds — in particular while
the remote backend throws on every call — the local backend holds `v`
for `k` afterwards. -/
theorem set_resolves_undefined_with_local_durability (k v : String)
    (b : SetB) (w : World) (h : b.localSet = LocB.ok) :
    (enhancedSetItem k v b w).ret = JsOutcome.value JsRet.undef ∧
    lookupKV ((enhancedSetItem k v b w).world).localMap k = some v := by
  obtain ⟨ls, rs⟩ := b
  cases ls <;> cases rs <;> cases hr : vkReady w <;>
    simp_all [enhancedSetItem]

/-- C6, witness: the amended theorem in the claim's own scenario — the
bridge ready and the remote backend throwing. -/
theorem set_resolves_undefined_with_local_durability_witness :
    (enhancedSetItem "k" "v" ⟨LocB.ok, RSetB.throws⟩
        ⟨[], [], [], true, true⟩).ret = JsOutcome.value JsRet.undef ∧
    lookupKV ((enhancedSetItem "k" "v" ⟨LocB.ok, RSetB.throws⟩
        ⟨[], [], [], true, true⟩).world).localMap "k" = some "v" :=
  set_resolves_undefined_with_local_durability "k" "v" ⟨LocB.ok, RSetB.throws⟩
    ⟨[], [], [], true, true⟩ (by decide)

/-! ### C3 — remote preference on read -/

/-- C3: with the bridge ready and the remote read for `k` yielding a
non-absent, non-empty value `v`, `get(k)` returns `v` (whatever stale
value the local backend holds), records `v` in the cache, and writes it
through to the local backend, so that afterwards the local backend
holds `v` for `k`.  (The local write-back is assumed not to throw —
local-backend failures are the spec's separately-documented quota
case.) -/
theorem get_remote_preference (k v : String) (b : GetB) (w : World)
    (hwp : w.wrapperPresent = true) (hin : w.initialized = true)
    (hrg : b.remoteGet = RGetB.ret (some v)) (hv : v ≠ "")
    (hwb : b.localWriteBack = LocB.ok) :
    (enhancedGetItem k b w).ret = JsOutcome.value (some v) ∧
    lookupKV ((enhancedGetItem k b w).world).cache k = some v ∧
    lookupKV ((enhancedGetItem k b w).world).localMap k = some v := by
  simp [enhancedGetItem, vkReady, hwp, hin, hrg, hv, hwb]

/-- C3, witness: Scenario A of the spec — the remote backend holds
`level3` while the local backend holds the stale `level1`; `get`
returns the remote value and overwrites the local one. -/
theorem get_remote_preference_witness :
    (enhancedGetItem "progress"
        ⟨RGetB.ret (some "level3"), LocB.ok, LocB.ok, RSetB.ok, LocB.ok⟩
        ⟨[("progress", "level1")], [("progress", "level3")], [], true, true⟩).ret
      = JsOutcome.value (some "level3") ∧
    lookupKV ((enhancedGetItem "progress"
        ⟨RGetB.ret (some "level3"), LocB.ok, LocB.ok, RSetB.ok, LocB.ok⟩
        ⟨[("progress", "level1")], [("progress", "level3")], [], true, true⟩).world).cache
        "progress" = some "level3" ∧
    lookupKV ((enhancedGetItem "progress"
        ⟨RGetB.ret (some "level3"), LocB.ok, LocB.ok, RSetB.ok, LocB.ok⟩
        ⟨[("progress", "level1")], [("progress", "level3")], [], true, true⟩).world).localMap
        "progress" = some "level3" :=
  get_remote_preference "progress" "level3"
    ⟨RGetB.ret (some "level3"), LocB.ok, LocB.ok, RSetB.ok, LocB.ok⟩
    ⟨[("progress", "level1")], [("progress", "level3")], [], true, true⟩
    (by decide) (by decide) (by decide) (by decide) (by decide)

/-! ### C4 — local fallback on read -/

/-- C4: if the bridge is not ready, or the remote read throws, or it
yields absent or the empty string, and the local backend holds `v` for
`k` (with the local reads themselves not throwing), then `get(k)`
returns `v`; and when the bridge was ready but the remote backend had
no value (absent or empty) and the sync-up write succeeds, `v` is also
written up to the remote backend. -/
theorem get_local_fallback (k v : String) (b : GetB) (w : World)
    (hl : lookupKV w.localMap k = some v)
    (hlg : b.localGet = LocB.ok) (hclg : b.catchLocalGet = LocB.ok)
    (hng : vkReady w = false ∨ b.remoteGet = RGetB.throws ∨
      b.remoteGet = RGetB.ret none ∨ b.remoteGet = RGetB.ret (some "")) :
    (enhancedGetItem k b w).ret = JsOutcome.value (some v) ∧
    (vkReady w = true →
      (b.remoteGet = RGetB.ret none ∨ b.remoteGet = RGetB.ret (some "")) →
      b.remoteSync = RSetB.ok →
      lookupKV ((enhancedGetItem k b w).world).remoteMap k = some v) := by
  cases hr : vkReady w <;> cases hrs : b.remoteSync <;>
    rcases hng with h | h | h | h <;>
    simp_all [enhancedGetItem, localPhase, catchFallback]

/-- C4, witness: Scenario B of the spec — the bridge never became
ready, the local backend holds `level1`; `get("progress")` returns it
(and issues no remote call). -/
theorem get_local_fallback_witness :
    (enhancedGetItem "progress"
        ⟨RGetB.throws, LocB.ok, LocB.ok, RSetB.ok, LocB.ok⟩
        ⟨[("progress", "level1")], [], [], true, false⟩).ret
      = JsOutcome.value (some "level1") :=
  (get_local_fallback "progress" "level1"
    ⟨RGetB.throws, LocB.ok, LocB.ok, RSetB.ok, LocB.ok⟩
    ⟨[("progress", "level1")], [], [], true, false⟩
    (by decide) (by decide) (by decide) (Or.inl (by decide))).1

/-! ### C5 — remove semantics -/

/-- C5: after `remove(k)` resolves (with the local remove succeeding,
and the empty-string remote write succeeding whenever the bridge is
ready), the local backend has no entry for `k` and the cache entry is
deleted; if the bridge is ready the remote backend holds the empty
string for `k`; and a subsequent `get(k)` — with no other writer, the
remote read faithfully reporting the remote store, and the local read
not throwing — returns Absent (`null`): the empty remote value is
treated as absent on read. -/
theorem remove_clears_and_get_absent (k : String) (br : RemoveB) (bg : GetB) (w : World)
    (hlr : br.localRemove = LocB.ok)
    (hrs : vkReady w = true → br.remoteSet = RSetB.ok)
    (hlg : bg.localGet = LocB.ok)
    (hrg : bg.remoteGet
      = RGetB.ret (lookupKV ((enhancedRemoveItem k br w).world).remoteMap k)) :
    lookupKV ((enhancedRemoveItem k br w).world).localMap k = none ∧
    lookupKV ((enhancedRemoveItem k br w).world).cache k = none ∧
    (vkReady w = true →
      lookupKV ((enhancedRemoveItem k br w).world).remoteMap k = some "") ∧
    (enhancedGetItem k bg ((enhancedRemoveItem k br w).world)).ret
      = JsOutcome.value none := by
  obtain ⟨lm, rm, c, wp, ini⟩ := w
  cases wp <;> cases ini <;>
    simp_all [enhancedRemoveItem, enhancedGetItem, localPhase, catchFallback, vkReady]

/-- C5, witness: a concrete world in which both backends and the cache
held a value for `"k"`; after `remove("k")` everything local is
cleared, the remote holds the empty string, and `get("k")` returns
Absent. -/
theorem remove_clears_and_get_absent_witness :
    lookupKV ((enhancedRemoveItem "k" ⟨LocB.ok, RSetB.ok⟩
        ⟨[("k", "v")], [("k", "old")], [("k", "v")], true, true⟩).world).localMap "k"
      = none ∧
    lookupKV ((enhancedRemoveItem "k" ⟨LocB.ok, RSetB.ok⟩
        ⟨[("k", "v")], [("k", "old")], [("k", "v")], true, true⟩).world).cache "k"
      = none ∧
    (vkReady ⟨[("k", "v")], [("k", "old")], [("k", "v")], true, true⟩ = true →
      lookupKV ((enhancedRemoveItem "k" ⟨LocB.ok, RSetB.ok⟩
        ⟨[("k", "v")], [("k", "old")], [("k", "v")], true, true⟩).world).remoteMap "k"
      = some "") ∧
    (enhancedGetItem "k"
        ⟨RGetB.ret (some ""), LocB.ok, LocB.ok, RSetB.ok, LocB.ok⟩
        ((enhancedRemoveItem "k" ⟨LocB.ok, RSetB.ok⟩
          ⟨[("k", "v")], [("k", "old")], [("k", "v")], true, true⟩).world)).ret
      = JsOutcome.value none :=
  remove_clears_and_get_absent "k" ⟨LocB.ok, RSetB.ok⟩
    ⟨RGetB.ret (some ""), LocB.ok, LocB.ok, RSetB.ok, LocB.ok⟩
    ⟨[("k", "v")], [("k", "old")], [("k", "v")], true, true⟩
    (by decide) (by decide) (by decide) (by decide)

/-! ### C7 — the remote handshake -/

theorem initCalls_of_flag_set (vkDef : Bool) (sends : List Bool) :
    initCalls vkDef sends true = (true, 0) := by
  induction sends with
  | nil => rfl
  | cons sendOk rest ih => simp [initCalls, vkInit, ih]

/-- C7, counterexample.  The claim says a failed handshake is never
retried and that multiple `init()` calls perform exactly one underlying
platform initialization call.  But `init()` only memoizes success:
with `vkBridge` defined and the handshake throwing, two successive
`init()` invocations (e.g. the auto-init hook followed by the
re-attempt inside any `storageGet`/`storageSet` that finds the flag
unset) send `VKWebAppInit` twice. -/
theorem init_retried_after_failure :
    (initCalls true [false, false] false).2 = 2 ∧
    (initCalls true [false, false] false).2 ≠ 1 := by decide

/-- C7, amended: `init` memoizes its outcome only on success.  Once the
flag is set, any sequence of further calls performs zero additional
platform initialization calls and every caller observes `true`; a first
successful handshake therefore costs exactly one platform call no
matter how many calls follow.  A failed handshake, however, leaves the
flag unset and is re-attempted: `n` invocations that all fail perform
`n` underlying platform calls (one per invocation). -/
theorem init_memoizes_success_only (vkDef : Bool) (sends : List Bool) (n : Nat) :
    initCalls vkDef sends true = (true, 0) ∧
    initCalls true (true :: sends) false = (true, 1) ∧
    initCalls true (List.replicate n false) false = (false, n) := by
  refine ⟨initCalls_of_flag_set vkDef sends, ?_, ?_⟩
  · simp [initCalls, vkInit, initCalls_of_flag_set]
  · induction n with
    | zero => rfl
    | succ m ih =>
      simp only [List.replicate_succ, initCalls, vkInit]
      simp [ih]
      omega

/-! ### C8 — bounded waiting -/

theorem localPhase_remoteCalls_of_not_ready (key : String) (b : GetB) (w : World)
    (calls : Nat) (hr : vkReady w = false) :
    (localPhase key b w calls).remoteCalls = calls := by
  cases hlg : b.localGet <;> cases hclg : b.catchLocalGet <;>
    rcases hlk : lookupKV w.localMap key with _ | lv <;>
    simp_all [localPhase, catchFallback]

/-- C8: the only wait in the bridge is the one-time start-up poll of
`initialize()`, bounded by `maxAttempts = 50` sleeps of
`pollIntervalMs = 100` milliseconds (at most 5000 ms) for every
possible readiness history; and any `get`/`set`/`remove` issued while
the bridge is not ready performs zero remote-backend calls — it
proceeds straight to the local-only path with no further waiting. -/
theorem bounded_wait_local_path_when_not_ready (readyAt : Nat → Bool)
    (k v : String) (bg : GetB) (bs : SetB) (br : RemoveB) (w : World)
    (hnr : vkReady w = false) :
    pollAttempts readyAt ≤ maxAttempts ∧
    maxAttempts = 50 ∧ pollIntervalMs = 100 ∧
    pollAttempts readyAt * pollIntervalMs ≤ 5000 ∧
    (enhancedGetItem k bg w).remoteCalls = 0 ∧
    (enhancedSetItem k v bs w).remoteCalls = 0 ∧
    (enhancedRemoveItem k br w).remoteCalls = 0 := by
  have hb : pollAttempts readyAt ≤ maxAttempts :=
    pollAux_le_max readyAt 0 maxAttempts (by decide)
  refine ⟨hb, rfl, rfl, ?_, ?_, ?_, ?_⟩
  · have : pollAttempts readyAt * pollIntervalMs ≤ maxAttempts * pollIntervalMs :=
      Nat.mul_le_mul_right _ hb
    simpa [maxAttempts, pollIntervalMs] using this
  · simpa [enhancedGetItem, hnr] using
      localPhase_remoteCalls_of_not_ready k bg w 0 hnr
  · cases hls : bs.localSet <;> simp_all [enhancedSetItem]
  · cases hlr : br.localRemove <;> simp_all [enhancedRemoveItem]

/-- C8, witness: Scenario B — the remote backend never becomes ready;
the start-up poll stops after the bounded window and a `get` on a
locally-present key issues no remote call. -/
theorem bounded_wait_local_path_when_not_ready_witness :
    pollAttempts (fun _ => false) ≤ maxAttempts ∧
    maxAttempts = 50 ∧ pollIntervalMs = 100 ∧
    pollAttempts (fun _ => false) * pollIntervalMs ≤ 5000 ∧
    (enhancedGetItem "progress"
        ⟨RGetB.throws, LocB.ok, LocB.ok, RSetB.ok, LocB.ok⟩
        ⟨[("progress", "level1")], [], [], true, false⟩).remoteCalls = 0 ∧
    (enhancedSetItem "progress" "level1" ⟨LocB.ok, RSetB.ok⟩
        ⟨[("progress", "level1")], [], [], true, false⟩).remoteCalls = 0 ∧
    (enhancedRemoveItem "progress" ⟨LocB.ok, RSetB.ok⟩
        ⟨[("progress", "level1")], [], [], true, false⟩).remoteCalls = 0 :=
  bounded_wait_local_path_when_not_ready (fun _ => false) "progress" "level1"
    ⟨RGetB.throws, LocB.ok, LocB.ok, RSetB.ok, LocB.ok⟩
    ⟨LocB.ok, RSetB.ok⟩ ⟨LocB.ok, RSetB.ok⟩
    ⟨[("progress", "level1")], [], [], true, false⟩ (by decide)

/-! ### C9 — cache lifecycle -/

theorem catchFallback_world (key : String) (b : GetB) (w : World) (calls : Nat) :
    (catchFallback key b w calls).world = w := by
  cases hc : b.catchLocalGet <;> simp [catchFallback, hc]

theorem localPhase_cache (key : String) (b : GetB) (w : World) (calls : Nat) :
    (localPhase key b w calls).world.cache = w.cache := by
  cases hlg : b.localGet <;> cases hclg : b.catchLocalGet <;>
    rcases hlk : lookupKV w.localMap key with _ | lv <;>
    cases hr : vkReady w <;> cases hrs : b.remoteSync <;>
    simp_all [localPhase, catchFallback]

/-- C9, counterexample.  The claim says a cache entry is created on the
first successful read, "including a successful local-only read".  But
the local-fallback branch of `enhancedGetItem` returns the local value
without touching `vkStorageCache`: with the wrapper absent and the
local backend holding `"v"`, `get("k")` succeeds returning `"v"` while
the cache still has no entry for `"k"`.  (A local-only write behaves
the same: `enhancedSetItem` updates the cache only when the remote
replication reports success.) -/
theorem local_only_read_does_not_populate_cache :
    (enhancedGetItem "k"
        ⟨RGetB.ret none, LocB.ok, LocB.ok, RSetB.ok, LocB.ok⟩
        ⟨[("k", "v")], [], [], false, false⟩).ret = JsOutcome.value (some "v") ∧
    lookupKV ((enhancedGetItem "k"
        ⟨RGetB.ret none, LocB.ok, LocB.ok, RSetB.ok, LocB.ok⟩
        ⟨[("k", "v")], [], [], false, false⟩).world).cache "k" = none := by decide

/-- C9, amended: the cache is written exactly when the remote backend
is involved and reports data or success — a read that obtains a
non-absent, non-empty value from the remote backend overwrites the
cache entry, and a write whose remote replication succeeds overwrites
it; every other read or write (local-only reads and writes included)
leaves the cache untouched; and the entry is deleted only by
`remove(k)` (whose cache delete is skipped if the local remove
throws). -/
theorem cache_update_characterization (k v : String)
    (bg : GetB) (bs : SetB) (br : RemoveB) (w : World) :
    (vkReady w = true → bg.remoteGet = RGetB.ret (some v) → v ≠ "" →
      (enhancedGetItem k bg w).world.cache = insertKV w.cache k v) ∧
    ((vkReady w = false ∨ bg.remoteGet = RGetB.throws ∨
        bg.remoteGet = RGetB.ret none ∨ bg.remoteGet = RGetB.ret (some "")) →
      (enhancedGetItem k bg w).world.cache = w.cache) ∧
    (bs.localSet = LocB.ok → vkReady w = true → bs.remoteSet = RSetB.ok →
      (enhancedSetItem k v bs w).world.cache = insertKV w.cache k v) ∧
    ((bs.localSet = LocB.throws ∨ vkReady w = false ∨
        bs.remoteSet = RSetB.throws ∨ bs.remoteSet = RSetB.retFalse) →
      (enhancedSetItem k v bs w).world.cache = w.cache) ∧
    (br.localRemove = LocB.ok →
      (enhancedRemoveItem k br w).world.cache = eraseKV w.cache k) ∧
    (br.localRemove = LocB.throws →
      (enhancedRemoveItem k br w).world.cache = w.cache) := by
  refine ⟨?_, ?_, ?_, ?_, ?_, ?_⟩
  · intro hr hrg hv
    cases hwb : bg.localWriteBack <;>
      simp [enhancedGetItem, hr, hrg, hv, hwb, catchFallback_world]
  · intro h
    cases hr : vkReady w
    · simp [enhancedGetItem, hr, localPhase_cache]
    · rcases h with h | h | h | h
      · simp_all
      · simp [enhancedGetItem, hr, h, catchFallback_world]
      · simp [enhancedGetItem, hr, h, localPhase_cache]
      · simp [enhancedGetItem, hr, h, localPhase_cache]
  · intro hls hr hrs
    simp [enhancedSetItem, hls, hr, hrs]
  · intro h
    rcases h with h | h | h | h <;>
      cases hls : bs.localSet <;> cases hr : vkReady w <;>
      simp_all [enhancedSetItem]
  · intro hlr
    cases hr : vkReady w <;> cases hrs : br.remoteSet <;>
      simp_all [enhancedRemoveItem]
  · intro hlr
    simp [enhancedRemoveItem, hlr]

/-- C9, witness: with the bridge ready and every backend call
succeeding, a remote-hit read, a replicated write, and a remove update
or clear the cache entry exactly as characterised. -/
theorem cache_update_characterization_witness :
    (enhancedGetItem "k"
        ⟨RGetB.ret (some "v"), LocB.ok, LocB.ok, RSetB.ok, LocB.ok⟩
        ⟨[], [], [], true, true⟩).world.cache = insertKV [] "k" "v" ∧
    (enhancedSetItem "k" "v" ⟨LocB.ok, RSetB.ok⟩
        ⟨[], [], [], true, true⟩).world.cache = insertKV [] "k" "v" ∧
    (enhancedRemoveItem "k" ⟨LocB.ok, RSetB.ok⟩
        ⟨[], [], [], true, true⟩).world.cache = eraseKV [] "k" :=
  ⟨(cache_update_characterization "k" "v"
      ⟨RGetB.ret (some "v"), LocB.ok, LocB.ok, RSetB.ok, LocB.ok⟩
      ⟨LocB.ok, RSetB.ok⟩ ⟨LocB.ok, RSetB.ok⟩
      ⟨[], [], [], true, true⟩).1 (by decide) (by decide) (by decide),
   ((cache_update_characterization "k" "v"
      ⟨RGetB.ret (some "v"), LocB.ok, LocB.ok, RSetB.ok, LocB.ok⟩
      ⟨LocB.ok, RSetB.ok⟩ ⟨LocB.ok, RSetB.ok⟩
      ⟨[], [], [], true, true⟩).2.2.1 (by decide) (by decide) (by decide)),
   ((cache_update_characterization "k" "v"
      ⟨RGetB.ret (some "v"), LocB.ok, LocB.ok, RSetB.ok, LocB.ok⟩
      ⟨LocB.ok, RSetB.ok⟩ ⟨LocB.ok, RSetB.ok⟩
      ⟨[], [], [], true, true⟩).2.2.2.2.1 (by decide))⟩

/-! ### C10 — calculateNextLevel -/

/-- C10, counterexample.  The claim says that whenever
`calculateNextLevel` returns a non-null result with `currentLevel` a
non-negative integer, `nextLevel` is strictly below the length of the
designated group's `levels` array.  With two non-custom groups whose
second has an empty `levels` array, finishing the first group's only
level yields `{nextLevel: 0, nextLevelGroup: 1}` — but group 1's
`levels` has length 0, so `0 < 0` fails: the advance-to-next-group
branch never checks the next group's length. -/
theorem calculateNextLevel_empty_next_group :
    calculateNextLevel 0 0 (some [⟨false, [()]⟩, ⟨false, []⟩]) = some ⟨0, 1⟩ ∧
    [Group.mk false [()], Group.mk false []].get? 1 = some ⟨false, []⟩ ∧
    ¬ ((0 : Int) < ((([] : List Unit).length : Nat) : Int)) := by decide

/-- C10, amended: `calculateNextLevel` is a total function (every
JavaScript exception inside it is caught and turned into `null`), and
whenever it returns a non-null result with `currentLevel` non-negative,
`nextLevelGroup` is a valid index into `levelGroups` designating a
group whose `isCustom` is falsy, and `nextLevel` is non-negative and
either strictly below that group's `levels` length or equal to `0`
(the advance-to-next-group branch returns level `0` even when the next
group's `levels` array is empty). -/
theorem calculateNextLevel_result_bounds (cl cg : Int) (lgs : List Group)
    (res : NextLevel)
    (hres : calculateNextLevel cl cg (some lgs) = some res) (hcl : 0 ≤ cl) :
    ∃ g, lgs.get? res.nextLevelGroup = some g ∧ g.isCustom = false ∧
      0 ≤ res.nextLevel ∧
      (res.nextLevel < (g.levels.length : Int) ∨ res.nextLevel = 0) := by
  simp only [calculateNextLevel] at hres
  split at hres
  · exact absurd hres (by simp)
  · rename_i hne
    cases hsel : jsIndex lgs cg with
    | none => simp only [hsel] at hres; exact Option.noConfusion hres
    | some sel =>
      simp only [hsel] at hres
      cases hcif : idxOf (lgs.filter fun g => !g.isCustom) sel with
      | none => simp only [hcif] at hres; exact Option.noConfusion hres
      | some cif =>
        simp only [hcif] at hres
        cases hcur : (lgs.filter fun g => !g.isCustom).get? cif with
        | none => simp only [hcur] at hres; exact Option.noConfusion hres
        | some cur =>
          simp only [hcur] at hres
          cases hall : idxOf lgs cur with
          | none => simp only [hall] at hres; exact Option.noConfusion hres
          | some curAll =>
            simp only [hall] at hres
            have hcurMem : cur ∈ lgs.filter fun g => !g.isCustom :=
              List.get?_mem hcur
            have hcurNC : cur.isCustom = false := by
              have := List.of_mem_filter hcurMem
              simpa using this
            split at hres
            · rename_i hlt
              have hres' : res = ⟨cl + 1, curAll⟩ := by
                cases hres; rfl
              subst hres'
              exact ⟨cur, idxOf_get? lgs cur curAll hall, hcurNC,
                by simpa using Int.le_trans hcl (by omega),
                Or.inl (by simpa using hlt)⟩
            · split at hres
              · cases hng : (lgs.filter fun g => !g.isCustom).get? (cif + 1) with
                | none => simp only [hng] at hres; exact Option.noConfusion hres
                | some nextG =>
                  simp only [hng] at hres
                  cases hnall : idxOf lgs nextG with
                  | none => simp only [hnall] at hres; exact Option.noConfusion hres
                  | some nextAll =>
                    simp only [hnall] at hres
                    have hres' : res = ⟨0, nextAll⟩ := by
                      cases hres; rfl
                    subst hres'
                    have hngMem : nextG ∈ lgs.filter fun g => !g.isCustom :=
                      List.get?_mem hng
                    have hngNC : nextG.isCustom = false := by
                      have := List.of_mem_filter hngMem
                      simpa using this
                    exact ⟨nextG, idxOf_get? lgs nextG nextAll hnall, hngNC,
                      le_refl 0, Or.inr rfl⟩
              · exact absurd hres (by simp)

/-- C10, witness: a single non-custom group with two levels; finishing
level 0 advances to level 1 of the same group, a valid in-bounds
position. -/
theorem calculateNextLevel_result_bounds_witness :
    ∃ g, [Group.mk false [(), ()]].get? (NextLevel.mk 1 0).nextLevelGroup = some g ∧
      g.isCustom = false ∧ 0 ≤ (NextLevel.mk 1 0).nextLevel ∧
      ((NextLevel.mk 1 0).nextLevel < (g.levels.length : Int) ∨
        (NextLevel.mk 1 0).nextLevel = 0) :=
  calculateNextLevel_result_bounds 0 0 [⟨false, [(), ()]⟩] ⟨1, 0⟩
    (by decide) (by decide)

end RobocotVK
